import Mathlib

/-!
Verification development for the mediaimporter.emby add-on.

Shallow embedding of the library-synchronization engine:
`lib/settings.py` (sync-settings fingerprint), `lib/importer.py`
(`execImport` planning phase, `importItems` pagination, `forceSync`,
the collection-reconciliation pass, the fast-sync removal step),
`lib/kodi.py` (`Api.compareMediaProviders`,
`Api.matchImportedItemIdsToLocalItems`, `Api.setCollection`) and
`emby/provider_observer.py` (`ProviderObserver`).

Host APIs (`xbmcmediaimport`, dialogs, the HTTP client and the real Emby
server) are external collaborators and are modelled as explicit
parameters (oracles) of the embedded functions.
-/

namespace Emby

/-! ## Media type constants (xbmcmediaimport.MediaType*) -/

def MediaTypeMovie : String := "movie"
def MediaTypeVideoCollection : String := "videocollection"
def MediaTypeTvShow : String := "tvshow"
def MediaTypeSeason : String := "season"
def MediaTypeEpisode : String := "episode"
def MediaTypeMusicVideo : String := "musicvideo"

/-! ## Settings model

`lib/settings.py` reads provider settings and import settings through a
key/value store.  We model the keys the synchronization code reads as
named fields and collect every other setting in an association list
`other`, so that "unrelated settings" are representable.  The `saved`
flag tracks whether all pending `setString` changes were persisted with
`save()` (`setString` clears it, `save()` sets it). -/

structure ProviderSettings where
  /-- SETTING_PROVIDER_DEVICEID -/
  deviceId : String
  /-- SETTING_PROVIDER_USER -/
  user : String
  /-- SETTING_PROVIDER_USERNAME -/
  username : String
  /-- SETTING_PROVIDER_PASSWORD -/
  password : String
  /-- SETTING_PROVIDER_SYNCHRONIZATION_USE_KODI_COMPANION -/
  useKodiCompanion : Bool
  /-- SETTING_PROVIDER_PLAYBACK_ALLOW_DIRECT_PLAY -/
  allowDirectPlay : Bool
  /-- all provider settings not read by the synchronization code -/
  other : List (String × String)
deriving Repr, DecidableEq

/-- SETTING_PROVIDER_USER_OPTION_MANUAL -/
def userOptionManual : String := "manual"

/-- The sync-settings fingerprint object hashed by
`SynchronizationSettings.CalculateHash` (`lib/settings.py:108-123`).
The Python code serializes this object to JSON and stores its SHA-1 hex
digest.  We model the digest by the hash object itself: SHA-1 hex
digests are never empty and are treated as injective (the code's
comparisons of digests are exactly comparisons of these objects under
that collision-freeness assumption). -/
structure HashObject where
  useKodiCompanion : Bool
  allowDirectPlay : Bool
  libraryViews : List String
  /-- key present in the hash object only when movies or collections are
  among the imported media types (`lib/settings.py:118-123`) -/
  importCollections : Option Bool
deriving Repr, DecidableEq

/-- A stored fingerprint setting: `none` models the empty string `''`
(initial value, and the value written by `ResetHash`), `some h` models
the SHA-1 hex digest of `h` written by `SaveHash`. -/
abbrev StoredHash := Option HashObject

structure ImportSettings where
  /-- SETTING_IMPORT_VIEWS -/
  viewsMode : String
  /-- SETTING_IMPORT_VIEWS_SPECIFIC -/
  viewsSpecific : List String
  /-- SETTING_IMPORT_IMPORT_COLLECTIONS -/
  importCollections : Bool
  /-- SETTING_IMPORT_SYNC_SETTINGS_HASH -/
  syncSettingsHash : StoredHash
  /-- the persisted last-sync timestamp of the media import
  (`mediaImport.getLastSynced()`), written by the host -/
  lastSynced : Option String
  /-- whether all pending changes have been persisted via `save()` -/
  saved : Bool
  /-- all import settings not read by the synchronization code -/
  other : List (String × String)
deriving Repr, DecidableEq

/-- SETTING_IMPORT_VIEWS_OPTION_SPECIFIC -/
def viewsOptionSpecific : String := "specific"

/-- `ImportSettings.GetLibraryViews` (`lib/settings.py:63-71`): return
the specific view selection only when the views mode is `'specific'`,
else return the empty list. -/
def getLibraryViews (s : ImportSettings) : List String :=
  if ¬(s.viewsMode = viewsOptionSpecific) then []
  else s.viewsSpecific

/-- `SynchronizationSettings.GetHash` (`lib/settings.py:75-80`). -/
def getHash (s : ImportSettings) : StoredHash :=
  s.syncSettingsHash

/-- `SynchronizationSettings.SaveHash` (`lib/settings.py:82-90`):
`setString` followed by `save()`. -/
def saveHash (s : ImportSettings) (h : HashObject) : ImportSettings :=
  { s with syncSettingsHash := some h, saved := true }

/-- `SynchronizationSettings.CalculateHash` without the `save` side
effect (`lib/settings.py:92-135`, `save=False`): build the hash object
from the sync-relevant settings.  The import-collections setting is only
considered for movies and collections. -/
def calculateHash (mediaTypes : List String) (ps : ProviderSettings)
    (s : ImportSettings) : HashObject :=
  { useKodiCompanion := ps.useKodiCompanion
    allowDirectPlay := ps.allowDirectPlay
    libraryViews := getLibraryViews s
    importCollections :=
      if MediaTypeMovie ∈ mediaTypes ∨ MediaTypeVideoCollection ∈ mediaTypes then
        some s.importCollections
      else
        none }

/-- `SynchronizationSettings.HaveChanged` (`lib/settings.py:137-155`):
compare the stored fingerprint with the freshly computed one; when they
differ and `save` is set, persist the new fingerprint.  Returns the
changed flag together with the (possibly updated) import settings. -/
def haveChanged (mediaTypes : List String) (ps : ProviderSettings)
    (s : ImportSettings) (save : Bool) : Bool × ImportSettings :=
  let oldHash := getHash s
  let newHash := calculateHash mediaTypes ps s
  if oldHash = some newHash then
    (false, s)
  else if save then
    (true, saveHash s newHash)
  else
    (true, s)

/-- `SynchronizationSettings.ResetHash` (`lib/settings.py:157-164`):
set the stored fingerprint to the empty string; persist only when
`save` is set. -/
def resetHash (s : ImportSettings) (save : Bool) : ImportSettings :=
  let s1 := { s with syncSettingsHash := none, saved := false }
  if save then { s1 with saved := true } else s1

/-- `forceSync` (`lib/importer.py:334-353`): after the user confirms,
reset the synchronization hash setting (with `save=False`) to force a
full synchronization.  Nothing else of the import settings is touched. -/
def forceSync (confirmed : Bool) (s : ImportSettings) : ImportSettings :=
  if ¬confirmed then s
  else resetHash s false

/-! ## Sync planning (`execImport`, `lib/importer.py:700-735`)

The planning phase of `execImport` decides between a fast (companion
delta) synchronization and a full crawl.  `companionInstalled` models
the capability probe `KodiCompanion.IsInstalled(embyServer)`;
`toIso` models the datetime conversion
`parser.parse(lastSync).astimezone(utc).isoformat(...)`. -/

structure SyncPlan where
  /-- the `fastSync` flag after the planning phase -/
  fastSync : Bool
  /-- whether `KodiCompanion.SyncQueue.GetItems` was invoked -/
  queriedSyncQueue : Bool
  /-- the `MinDateLastSavedForUser` entry of `syncUrlOptions`, if set -/
  minDateLastSavedForUser : Option String
  /-- the import settings after the planning phase -/
  importSettings : ImportSettings
deriving Repr, DecidableEq

def planSync (mediaTypes : List String) (ps : ProviderSettings)
    (s : ImportSettings) (companionInstalled : Bool)
    (toIso : String → String) : SyncPlan :=
  let changed := haveChanged mediaTypes ps s true
  if changed.1 then
    -- settings changed: log and keep fastSync = False, syncUrlOptions empty
    { fastSync := false, queriedSyncQueue := false,
      minDateLastSavedForUser := none, importSettings := changed.2 }
  else
    match s.lastSynced with
    | some lastSync =>
      if ps.useKodiCompanion then
        if companionInstalled then
          { fastSync := true, queriedSyncQueue := true,
            minDateLastSavedForUser := some (toIso lastSync),
            importSettings := changed.2 }
        else
          -- companion enabled but the server plugin is not installed
          { fastSync := false, queriedSyncQueue := false,
            minDateLastSavedForUser := none, importSettings := changed.2 }
      else
        { fastSync := false, queriedSyncQueue := false,
          minDateLastSavedForUser := none, importSettings := changed.2 }
    | none =>
      { fastSync := false, queriedSyncQueue := false,
        minDateLastSavedForUser := none, importSettings := changed.2 }

/-! ## Paginated item crawl (`importItems`, `lib/importer.py:411-460`)

`importItems` pages through the items of one view (or collection) with a
running `startIndex` cursor.  The HTTP layer is an oracle
`server : Nat → Option (PageResponse α)` mapping the `StartIndex` query
option to the JSON response (`none` models a falsy `resultObj`); the
`Items` and `TotalRecordCount` fields of a response may each be missing.
The host's cancellation callback `xbmcmediaimport.shouldCancel` is the
oracle `shouldCancel`.  The conversion `kodi.Api.toFileItem` (which may
reject an item, `raw=False`) and the raw mode (`raw=True`, where
`handle := some`) are both captured by `handle : α → Option β`.

The Python loop `while True` need not terminate against an arbitrary
server, so the embedding consumes fuel; `CrawlOutcome.fuelOut` never
occurs for the servers considered in the theorems. -/

/-- ITEM_REQUEST_LIMIT (`lib/importer.py:62`); sent to the server as the
`Limit` query option of the base URL (`lib/importer.py:683`). -/
def ITEM_REQUEST_LIMIT : Nat := 100

structure PageResponse (α : Type) where
  /-- PROPERTY_ITEM_ITEMS (`'Items'`); `none` when the field is missing -/
  items : Option (List α)
  /-- PROPERTY_ITEM_TOTAL_RECORD_COUNT (`'TotalRecordCount'`); `none`
  when the field is missing -/
  totalRecordCount : Option Nat
deriving Repr

/-- Outcome of `importItems`, instrumented with the number of page
requests issued.  `invalidResponse` and `cancelled` both correspond to
the Python function returning `None` (the caller cannot distinguish
them); `ok items` corresponds to returning the collected list. -/
inductive CrawlOutcome (β : Type) where
  | ok (items : List β) (requests : Nat)
  | invalidResponse (requests : Nat)
  | cancelled (requests : Nat)
  | fuelOut
deriving Repr, DecidableEq

/-- The inner `for itemObj in itemsObj` loop (`lib/importer.py:441-454`):
advance `startIndex` per item, consult the cancellation callback, and
append the converted item unless the conversion rejects it.  Returns
`none` exactly when the loop was cancelled. -/
def consumePageItems {α β : Type} (shouldCancel : Nat → Nat → Bool)
    (handle : α → Option β) (totalCount : Nat) :
    List α → Nat → List β → Option (Nat × List β)
  | [], startIndex, items => some (startIndex, items)
  | itemObj :: rest, startIndex, items =>
    let startIndex1 := startIndex + 1
    if shouldCancel startIndex1 totalCount then
      none
    else
      match handle itemObj with
      | none => consumePageItems shouldCancel handle totalCount rest startIndex1 items
      | some item => consumePageItems shouldCancel handle totalCount rest startIndex1 (items ++ [item])

/-- The `while True` loop of `importItems` (`lib/importer.py:421-458`),
carrying the mutable `startIndex`, `totalCount`, `items` and the number
of page requests issued so far. -/
def importItemsLoop {α β : Type} (shouldCancel : Nat → Nat → Bool)
    (server : Nat → Option (PageResponse α)) (handle : α → Option β) :
    Nat → Nat → Nat → List β → Nat → CrawlOutcome β
  | 0, _, _, _, _ => .fuelOut
  | fuel + 1, startIndex, totalCount, items, requests =>
    if shouldCancel startIndex (max totalCount 1) then
      .cancelled requests
    else
      match server startIndex with
      | none => .invalidResponse (requests + 1)
      | some resultObj =>
        match resultObj.items, resultObj.totalRecordCount with
        | none, _ => .invalidResponse (requests + 1)
        | _, none => .invalidResponse (requests + 1)
        | some itemsObj, some newTotalCount =>
          match consumePageItems shouldCancel handle newTotalCount itemsObj startIndex items with
          | none => .cancelled (requests + 1)
          | some (startIndex1, items1) =>
            if startIndex1 ≥ newTotalCount then
              .ok items1 (requests + 1)
            else
              importItemsLoop shouldCancel server handle fuel startIndex1 newTotalCount items1 (requests + 1)

/-- `importItems` (`lib/importer.py:411-460`): crawl one view starting
at cursor 0 with empty accumulators. -/
def importItems {α β : Type} (shouldCancel : Nat → Nat → Bool)
    (server : Nat → Option (PageResponse α)) (handle : α → Option β)
    (fuel : Nat) : CrawlOutcome β :=
  importItemsLoop shouldCancel server handle fuel 0 0 [] 0

/-- A server that honours the `Limit=100` query option of the base URL:
at cursor `startIndex` it serves the slice of its item list starting
there, at most ITEM_REQUEST_LIMIT items long, and always reports the
list length as `TotalRecordCount`. -/
def sliceServer {α : Type} (allItems : List α) : Nat → Option (PageResponse α) :=
  fun startIndex =>
    some { items := some ((allItems.drop startIndex).take ITEM_REQUEST_LIMIT)
           totalRecordCount := some allItems.length }

/-- The host never cancelling (`xbmcmediaimport.shouldCancel` false). -/
def neverCancel : Nat → Nat → Bool := fun _ _ => false

/-! ## Media providers and `Api.compareMediaProviders`
(`lib/kodi.py:40-77`) -/

/-- An `xbmcmediaimport.MediaProvider` as read by the observer and by
`compareMediaProviders`.  `settings` is the result of
`prepareSettings()` (`none` models failure to prepare). -/
structure MediaProvider where
  /-- `getIdentifier()` -/
  identifier : String
  /-- `getBasePath()` -/
  basePath : String
  /-- `getFriendlyName()` -/
  friendlyName : String
  /-- `prepareSettings()` -/
  settings : Option ProviderSettings
deriving Repr, DecidableEq

/-- `Api.compareMediaProviders` (`lib/kodi.py:40-77`): field-wise
comparison of two providers.  Note that the base path is not among the
compared fields. -/
def compareMediaProviders (lhs rhs : Option MediaProvider) : Bool :=
  match lhs, rhs with
  | none, _ => false
  | _, none => false
  | some l, some r =>
    if l.identifier ≠ r.identifier then false
    else if l.friendlyName ≠ r.friendlyName then false
    else
      match l.settings, r.settings with
      | none, _ => false
      | _, none => false
      | some ls, some rs =>
        if ls.deviceId ≠ rs.deviceId then false
        else if ls.user ≠ rs.user then false
        else if ls.user = userOptionManual ∧ ls.username ≠ rs.username then false
        else if ls.password ≠ rs.password then false
        else true

/-! ## `ProviderObserver` (`emby/provider_observer.py`)

The observer's internal state.  The websocket is modelled as
`Option Nat`: `some g` is an open connection of generation `g`
(incremented on every `connect`, so teardown/reconnect is observable),
`none` is no websocket. -/

/-- An `xbmcmediaimport.MediaImport` as read by the observer:
`_FindImportIndices` compares `getPath()` and `getMediaTypes()`; the
`payload` field stands for everything else of the host object (settings,
timestamps, ...), so that updating an entry is observable. -/
structure MediaImport where
  path : String
  mediaTypes : List String
  payload : Nat
deriving Repr, DecidableEq

/-- The key `_FindImportIndices` matches on. -/
def importKey (m : MediaImport) : String × List String :=
  (m.path, m.mediaTypes)

/-- `ProviderObserver._FindImportIndices` (`emby/provider_observer.py:90-95`):
the indices of all imports with the same path and media types. -/
def findImportIndices (imports : List MediaImport) (mediaImport : MediaImport) : List Nat :=
  (imports.enum.filter
    (fun x => x.2.path == mediaImport.path && x.2.mediaTypes == mediaImport.mediaTypes)).map
    Prod.fst

/-- `ProviderObserver.AddImport` (`emby/provider_observer.py:44-59`):
replace the first matching entry, or append when none matches. -/
def addImport (imports : List MediaImport) (mediaImport : MediaImport) : List MediaImport :=
  match findImportIndices imports mediaImport with
  | [] => imports ++ [mediaImport]
  | i :: _ => imports.set i mediaImport

/-- `ProviderObserver.RemoveImport` (`emby/provider_observer.py:61-73`):
delete the first matching entry, or do nothing when none matches. -/
def removeImport (imports : List MediaImport) (mediaImport : MediaImport) : List MediaImport :=
  match findImportIndices imports mediaImport with
  | [] => imports
  | i :: _ => imports.eraseIdx i

inductive ImportOp where
  | add (m : MediaImport)
  | remove (m : MediaImport)
deriving Repr, DecidableEq

/-- A sequence of `AddImport` / `RemoveImport` calls applied to the
observer's `_imports` list. -/
def applyImportOps (imports : List MediaImport) : List ImportOp → List MediaImport
  | [] => imports
  | .add m :: rest => applyImportOps (addImport imports m) rest
  | .remove m :: rest => applyImportOps (removeImport imports m) rest

/-- The observer state relevant to `Start` / `Process`
(`ProviderObserver.__init__`, `emby/provider_observer.py:31-39`). -/
structure ObserverState where
  connected : Bool
  mediaProvider : Option MediaProvider
  settings : Option ProviderSettings
  websocket : Option Nat
  /-- generation counter for the next `websocket.WebSocket()` -/
  nextWsGen : Nat
deriving Repr, DecidableEq

/-- A freshly constructed observer. -/
def initialObserverState : ObserverState :=
  { connected := false, mediaProvider := none, settings := none,
    websocket := none, nextWsGen := 0 }

/-- `ProviderObserver._Reset` (`emby/provider_observer.py:402-405`). -/
def observerReset (st : ObserverState) : ObserverState :=
  { st with connected := false, mediaProvider := none }

/-- `ProviderObserver._StopAction` (`emby/provider_observer.py:391-400`):
when connected, close the websocket and `_Reset`. -/
def stopAction (st : ObserverState) : ObserverState :=
  if ¬st.connected then st
  else observerReset { st with websocket := none }

/-- Everything `_StartAction` observably does, beyond the state change. -/
structure StartActionResult where
  state : ObserverState
  /-- the returned value; `none` when the `RuntimeError` for missing
  settings propagates -/
  returned : Option Bool
  /-- whether `_StopAction(restart=True)` closed an open websocket -/
  toreDown : Bool
  /-- whether a fresh `websocket.connect` was attempted -/
  wsConnectAttempted : Bool
deriving Repr, DecidableEq

/-- `ProviderObserver._StartAction` (`emby/provider_observer.py:326-389`).
`authOk` models the outcome of `Server(...).Authenticate(force=True)`
(false also covers an exception there) and `connectOk` the outcome of
`websocket.connect`. -/
def startAction (st : ObserverState) (mediaProvider : MediaProvider)
    (authOk connectOk : Bool) : StartActionResult :=
  -- if we are already connected check if something important changed
  if st.connected ∧ compareMediaProviders st.mediaProvider (some mediaProvider) then
    -- update the media provider and settings anyway
    { state := { st with mediaProvider := some mediaProvider,
                         settings := mediaProvider.settings }
      returned := some true, toreDown := false, wsConnectAttempted := false }
  else
    let toreDown := st.connected
    let st1 := stopAction st
    let st2 := { st1 with mediaProvider := some mediaProvider,
                          settings := mediaProvider.settings }
    match mediaProvider.settings with
    | none =>
      -- raise RuntimeError('cannot prepare media provider settings')
      { state := st2, returned := none, toreDown := toreDown,
        wsConnectAttempted := false }
    | some _ =>
      if ¬authOk then
        { state := observerReset st2, returned := some false,
          toreDown := toreDown, wsConnectAttempted := false }
      else
        -- create the websocket and connect it
        let st3 := { st2 with websocket := some st2.nextWsGen,
                              nextWsGen := st2.nextWsGen + 1 }
        if ¬connectOk then
          { state := observerReset { st3 with websocket := none },
            returned := some false, toreDown := toreDown,
            wsConnectAttempted := true }
        else
          { state := { st3 with connected := true }, returned := some true,
            toreDown := toreDown, wsConnectAttempted := true }

/-! ## `ProviderObserver._ProcessMessages`
(`emby/provider_observer.py:108-133`)

One call of `self._websocket.recv()` either returns a frame, returns
`None` (end of stream), raises a timeout, or raises some other
exception; a returned frame either parses to a truthy JSON object, to a
falsy one, or `json.loads` raises (caught by the generic handler). -/

inductive RecvEvent (μ : Type) where
  /-- `recv` returned a frame parsing to a truthy message object -/
  | valid (messageObj : μ)
  /-- `recv` returned a frame parsing to a falsy object -/
  | falsy
  /-- `recv` returned a frame on which `json.loads` raises -/
  | unparsable
  /-- `recv` returned `None` (end of stream) -/
  | eos
  /-- `websocket.WebSocketTimeoutException` -/
  | timeoutExc
  /-- any other exception -/
  | otherExc
deriving Repr, DecidableEq

/-- The `while True` receive loop of `_ProcessMessages`: returns the
message objects handed to `_ProcessMessage`, in order.  The loop `break`s
on end of stream, on a timeout and on any other exception (logging the
latter); it `continue`s on falsy JSON. -/
def processMessagesLoop {μ : Type} : List (RecvEvent μ) → List μ → List μ
  | [], processed => processed
  | ev :: rest, processed =>
    match ev with
    | .valid messageObj => processMessagesLoop rest (processed ++ [messageObj])
    | .falsy => processMessagesLoop rest processed
    | .unparsable => processed
    | .eos => processed
    | .timeoutExc => processed
    | .otherExc => processed

/-- `ProviderObserver._ProcessMessages` (`emby/provider_observer.py:108-133`):
nothing to do unless connected; otherwise drain the receive loop.
Returns the observer state after the call together with the message
objects dispatched to `_ProcessMessage`. -/
def processMessages {μ : Type} (st : ObserverState) (stream : List (RecvEvent μ)) :
    ObserverState × List μ :=
  if ¬st.connected then (st, [])
  else (st, processMessagesLoop stream [])

/-! ## `Api.matchImportedItemIdsToLocalItems` (`lib/kodi.py:197-222`)

A locally imported item, as far as the matching code reads it:
`embyId` is the result of `Api.getEmbyItemIdFromItem` (`none` models a
falsy result, i.e. `None`); the empty string is also falsy in Python and
is checked separately.  `payload` stands for the rest of the host item. -/

structure LocalItem where
  embyId : Option String
  payload : Nat
deriving Repr, DecidableEq

/-- The body of the `for index, importedItemIds in enumerate(...)` loop
for one local item whose id is truthy: in every (matched, to-process)
pair whose to-process list still contains the id, append the local item
and remove the id. -/
def matchLocalItemStep (localItemId : String) (localItem : LocalItem)
    (state : List (List LocalItem × List String)) :
    List (List LocalItem × List String) :=
  state.map (fun p =>
    if p.2.contains localItemId then (p.1 ++ [localItem], p.2.erase localItemId)
    else p)

/-- The `for localItem in localItems` loop of
`matchImportedItemIdsToLocalItems`: abort early when no ids are left to
process, skip local items with a falsy id. -/
def matchLoop : List LocalItem → List (List LocalItem × List String) →
    List (List LocalItem × List String)
  | [], state => state
  | localItem :: rest, state =>
    if state.all (fun p => p.2.isEmpty) then state
    else
      match localItem.embyId with
      | none => matchLoop rest state
      | some localItemId =>
        if localItemId = "" then matchLoop rest state
        else matchLoop rest (matchLocalItemStep localItemId localItem state)

/-- `Api.matchImportedItemIdsToLocalItems` (`lib/kodi.py:197-222`): for
each list of imported item ids, the local items matching them (each id
consumed at most once per list). -/
def matchImportedItemIdsToLocalItems (localItems : List LocalItem)
    (importedItemIdLists : List (List String)) : List (List LocalItem) :=
  (matchLoop localItems (importedItemIdLists.map (fun ids => ([], ids)))).map Prod.fst

/-- The singleton-state instance of `matchLoop`, used to reason about
the one-id-list call in `execImport`. -/
def matchOne : List LocalItem → List LocalItem → List String →
    List LocalItem × List String
  | [], matched, toProcess => (matched, toProcess)
  | localItem :: rest, matched, toProcess =>
    if toProcess.isEmpty then (matched, toProcess)
    else
      match localItem.embyId with
      | none => matchOne rest matched toProcess
      | some localItemId =>
        if localItemId = "" then matchOne rest matched toProcess
        else if toProcess.contains localItemId then
          matchOne rest (matched ++ [localItem]) (toProcess.erase localItemId)
        else matchOne rest matched toProcess

/-- The fast-sync removed-items step of `execImport`
(`lib/importer.py:815-832`): when the sync queue delivered removed ids,
match them against the imported items of the current media type and
pass the matching local items to the host as a `Removed` changeset
(an empty result list means `addImportItems` is not called). -/
def fastSyncRemovedStep (localItems : List LocalItem)
    (itemsRemoved : List String) : List LocalItem :=
  if itemsRemoved.isEmpty then []
  else
    ((matchImportedItemIdsToLocalItems localItems [itemsRemoved]).headD [])

/-! ## Collection reconciliation (`execImport`, `lib/importer.py:772-807`;
`Api.setCollection`, `lib/kodi.py:628-635`) -/

/-- A host item produced by `kodi.Api.toFileItem`, as far as the
collection pass reads it: its path and its video info tag's set name. -/
structure FileItem where
  path : String
  collection : Option String
deriving Repr, DecidableEq

/-- `Api.setCollection` (`lib/kodi.py:628-635`):
`item.getVideoInfoTag().setSet(collectionName)`. -/
def setCollection (item : FileItem) (collectionName : String) : FileItem :=
  { item with collection := some collectionName }

/-- A raw BoxSet listing object (`raw=True` crawl): the `Id` and `Name`
fields may each be missing. -/
structure BoxsetObj where
  id : Option String
  name : Option String
deriving Repr, DecidableEq

/-- Python dict assignment `boxsets[boxsetId] = boxsetName`: overwrite
in place, or append a new key. -/
def dictSet (d : List (String × String)) (k v : String) : List (String × String) :=
  if d.any (fun kv => kv.1 == k) then
    d.map (fun kv => if kv.1 == k then (kv.1, v) else kv)
  else d ++ [(k, v)]

/-- The two successful crawls of one library view for the current media
type: the converted primary items (`importItems(..., view.id, ...)`) and
the raw BoxSet listing (`importItems(..., boxsetUrl, ..., raw=True)`).
C4 models the failing crawls; here both are assumed to return lists. -/
structure ViewCrawl where
  items : List FileItem
  boxsetObjs : List BoxsetObj
deriving Repr, DecidableEq

/-- Observable events of the per-media-type import: a primary item was
fetched (appended to `items`), or `setCollection` was applied to an
already-collected item. -/
inductive CrawlEvent where
  | fetched (path : String)
  | tagged (path : String) (collectionName : String)
deriving Repr, DecidableEq

/-- The `for view in views` loop (`lib/importer.py:776-793`): extend the
item list with the view's primary items and — when collection import is
enabled, items have been collected and the media type is the movie
type — collect the view's BoxSets into the `boxsets` dict. -/
def viewPhase (importCollections isMovie : Bool) :
    List ViewCrawl → List FileItem → List (String × String) → List CrawlEvent →
    List FileItem × List (String × String) × List CrawlEvent
  | [], items, boxsets, events => (items, boxsets, events)
  | view :: rest, items, boxsets, events =>
    let items1 := items ++ view.items
    let events1 := events ++ view.items.map (fun it => CrawlEvent.fetched it.path)
    if importCollections ∧ ¬items1.isEmpty ∧ isMovie then
      let boxsets1 := view.boxsetObjs.foldl
        (fun d boxsetObj =>
          match boxsetObj.id, boxsetObj.name with
          | some boxsetId, some boxsetName => dictSet d boxsetId boxsetName
          | _, _ => d)
        boxsets
      viewPhase importCollections isMovie rest items1 boxsets1 events1
    else
      viewPhase importCollections isMovie rest items1 boxsets events1

/-- The `for index, item in enumerate(items)` loop for one BoxSet member
(`lib/importer.py:802-807`): apply `setCollection` to every collected
item with the same path, emitting one `tagged` event per application. -/
def tagBoxsetItem (items : List FileItem) (boxsetItemPath boxsetName : String) :
    List FileItem × List CrawlEvent :=
  (items.map (fun item =>
     if boxsetItemPath == item.path then setCollection item boxsetName else item),
   (items.filter (fun item => boxsetItemPath == item.path)).map
     (fun item => CrawlEvent.tagged item.path boxsetName))

/-- The `for boxsetItem in boxsetItems` loop for one BoxSet. -/
def tagBoxsetMembers (boxsetName : String) :
    List FileItem → List FileItem → List CrawlEvent →
    List FileItem × List CrawlEvent
  | [], items, events => (items, events)
  | boxsetItem :: rest, items, events =>
    let r := tagBoxsetItem items boxsetItem.path boxsetName
    tagBoxsetMembers boxsetName rest r.1 (events ++ r.2)

/-- The `for (boxsetId, boxsetName) in iteritems(boxsets)` loop
(`lib/importer.py:797-807`).  `members` is the (successful) member crawl
`importItems(..., boxsetId, ...)` for each BoxSet id. -/
def tagBoxsets (members : String → List FileItem) :
    List (String × String) → List FileItem → List CrawlEvent →
    List FileItem × List CrawlEvent
  | [], items, events => (items, events)
  | boxset :: rest, items, events =>
    let r := tagBoxsetMembers boxset.2 (members boxset.1) items events
    tagBoxsets members rest r.1 r.2

/-- The BoxSet reconciliation pass (`lib/importer.py:796-807`), guarded
by `importCollections and items`. -/
def boxsetPhase (importCollections : Bool) (members : String → List FileItem)
    (items : List FileItem) (boxsets : List (String × String)) :
    List FileItem × List CrawlEvent :=
  if importCollections ∧ ¬items.isEmpty then
    tagBoxsets members boxsets items []
  else (items, [])

/-- The whole per-media-type import of `execImport`
(`lib/importer.py:772-807`) for one media type, starting from empty
accumulators: first the view loop, then the BoxSet pass.  Returns the
final item list and the ordered event trace. -/
def mediaTypePhase (importCollections isMovie : Bool) (views : List ViewCrawl)
    (members : String → List FileItem) : List FileItem × List CrawlEvent :=
  let v := viewPhase importCollections isMovie views [] [] []
  let b := boxsetPhase importCollections members v.1 v.2.1
  (b.1, v.2.2 ++ b.2)

/-! ## The view loop when a crawl fails (`lib/importer.py:776-780`)

`importItems` signals an aborted crawl by returning `None`; the view
loop of `execImport` runs `items.extend(importItems(...))` without a
`None` check, so an aborted crawl raises `TypeError` (`extend` of
`None`), which no handler in `execImport` or `run` catches. -/

inductive PyOutcome (β : Type) where
  /-- the loop completed with the collected items -/
  | ok (items : List β)
  /-- an uncaught `TypeError` propagates out of `execImport` -/
  | typeError
  /-- modelling artifact: the crawl ran out of fuel -/
  | fuelOut
deriving Repr, DecidableEq

/-- The `for view in views` loop of `execImport`
(`lib/importer.py:776-780`), primary items only: extend the item list
with each view's crawl result. -/
def execImportViewsLoop {α β : Type} (server : String → Nat → Option (PageResponse α))
    (handle : α → Option β) (fuel : Nat) :
    List String → List β → PyOutcome β
  | [], items => .ok items
  | viewId :: rest, items =>
    match importItems neverCancel (server viewId) handle fuel with
    | .ok viewItems _ => execImportViewsLoop server handle fuel rest (items ++ viewItems)
    | .invalidResponse _ => .typeError
    | .cancelled _ => .typeError
    | .fuelOut => .fuelOut

/-! ## Concrete fixtures used by witnesses and counterexamples -/

/-- A concrete provider-settings value: manual user, companion enabled. -/
def psA : ProviderSettings :=
  { deviceId := "d1", user := "manual", username := "alice", password := "pw",
    useKodiCompanion := true, allowDirectPlay := true, other := [] }

/-- A concrete fingerprint object. -/
def hashA : HashObject :=
  { useKodiCompanion := false, allowDirectPlay := false, libraryViews := [],
    importCollections := none }

/-- A concrete import-settings value with no stored fingerprint and an
existing last-sync timestamp. -/
def sA : ImportSettings :=
  { viewsMode := "specific", viewsSpecific := ["v1"], importCollections := true,
    syncSettingsHash := none, lastSynced := some "2020-01-01 10:00:00",
    saved := true, other := [] }

/-- `sA` with a stored fingerprint. -/
def sB : ImportSettings := { sA with syncSettingsHash := some hashA }

/-- A concrete connected observer state. -/
def stConn : ObserverState :=
  { connected := true, mediaProvider := none, settings := none,
    websocket := some 0, nextWsGen := 1 }

/-- A concrete media provider. -/
def mpA : MediaProvider :=
  { identifier := "emby://srv1", basePath := "http://a.example:8096",
    friendlyName := "Server", settings := some psA }

/-- `mpA` with a different base path only. -/
def mpB : MediaProvider := { mpA with basePath := "http://b.example:8096" }

/-- A concrete observer state connected to `mpA`. -/
def stConnA : ObserverState :=
  { connected := true, mediaProvider := some mpA, settings := some psA,
    websocket := some 0, nextWsGen := 1 }

end Emby

namespace Emby

/-! # Claims -/

/-- C1: when the stored sync-settings fingerprint differs from the
freshly computed one, `execImport` keeps `fastSync = False` (full-crawl
mode), never queries the Kodi-companion sync queue (no
`MinDateLastSavedForUser` option, no `SyncQueue.GetItems` call) — even
when a last-sync timestamp exists and the companion plugin is
installed — and persists the newly computed fingerprint before the
crawl loop starts.  The `mediaTypes ≠ []` hypothesis keeps the input
inside the Python function's domain (empty media types raise
`ValueError` before any of this runs). -/
theorem changedFingerprint_forces_fullSync
    (mediaTypes : List String) (ps : ProviderSettings) (s : ImportSettings)
    (companionInstalled : Bool) (toIso : String → String)
    (hmt : mediaTypes ≠ [])
    (h : getHash s ≠ some (calculateHash mediaTypes ps s)) :
    (planSync mediaTypes ps s companionInstalled toIso).fastSync = false ∧
    (planSync mediaTypes ps s companionInstalled toIso).queriedSyncQueue = false ∧
    (planSync mediaTypes ps s companionInstalled toIso).minDateLastSavedForUser = none ∧
    (planSync mediaTypes ps s companionInstalled toIso).importSettings
      = saveHash s (calculateHash mediaTypes ps s) := by
  simp [planSync, haveChanged, h]

/-- Witness for C1 at a concrete input where a last-sync timestamp
exists, the companion setting is enabled and the plugin is installed. -/
theorem changedFingerprint_forces_fullSync_witness :
    (planSync [MediaTypeMovie] psA sA true id).fastSync = false ∧
    (planSync [MediaTypeMovie] psA sA true id).queriedSyncQueue = false ∧
    (planSync [MediaTypeMovie] psA sA true id).minDateLastSavedForUser = none ∧
    (planSync [MediaTypeMovie] psA sA true id).importSettings
      = saveHash sA (calculateHash [MediaTypeMovie] psA sA) :=
  changedFingerprint_forces_fullSync [MediaTypeMovie] psA sA true id
    (by decide) (by decide)

/-- C2 counterexample: `forceSync` does not clear the persisted
last-sync timestamp, and it does modify the stored sync-settings
fingerprint (it resets it to the empty value), contradicting the claim
at a concrete import-settings state. -/
theorem forceSync_touches_fingerprint_not_timestamp :
    (forceSync true sB).lastSynced = sB.lastSynced ∧
    sB.lastSynced ≠ none ∧
    (forceSync true sB).syncSettingsHash ≠ sB.syncSettingsHash := by
  refine ⟨rfl, by decide, by decide⟩

/-- C2 amended: the user-triggered force-synchronization action clears
the stored sync-settings fingerprint (resetting it to the empty string,
without saving the settings) while leaving the persisted
LastSyncTimestamp untouched, and thereby guarantees that the next
synchronization run is a full crawl (the freshly computed fingerprint
can never equal the cleared one, so the planner keeps
`fastSync = False` and does not query the companion sync queue). -/
theorem forceSync_resets_fingerprint
    (s : ImportSettings) (mediaTypes : List String) (ps : ProviderSettings)
    (companionInstalled : Bool) (toIso : String → String)
    (hmt : mediaTypes ≠ []) :
    forceSync true s = { s with syncSettingsHash := none, saved := false } ∧
    (forceSync true s).lastSynced = s.lastSynced ∧
    (planSync mediaTypes ps (forceSync true s) companionInstalled toIso).fastSync = false ∧
    (planSync mediaTypes ps (forceSync true s) companionInstalled toIso).queriedSyncQueue
      = false := by
  refine ⟨by simp [forceSync, resetHash], by simp [forceSync, resetHash], ?_, ?_⟩ <;>
    simp [planSync, haveChanged, getHash, forceSync, resetHash]

/-- Witness for C2 (amended) at a concrete input. -/
theorem forceSync_resets_fingerprint_witness :
    forceSync true sB = { sB with syncSettingsHash := none, saved := false } ∧
    (forceSync true sB).lastSynced = sB.lastSynced ∧
    (planSync [MediaTypeMovie] psA (forceSync true sB) true id).fastSync = false ∧
    (planSync [MediaTypeMovie] psA (forceSync true sB) true id).queriedSyncQueue = false :=
  forceSync_resets_fingerprint sB [MediaTypeMovie] psA true id (by decide)

/-- C7 counterexample: for a media-type set without movies and
collections (here: episodes), flipping the collection-import toggle
leaves the computed fingerprint unchanged, contradicting the claim that
changing any of the four settings changes the hash. -/
theorem calculateHash_ignores_collections_for_nonMovie :
    ({ sA with importCollections := true } : ImportSettings).importCollections ≠
      ({ sA with importCollections := false } : ImportSettings).importCollections ∧
    calculateHash [MediaTypeEpisode] psA { sA with importCollections := true } =
      calculateHash [MediaTypeEpisode] psA { sA with importCollections := false } := by
  refine ⟨by decide, by decide⟩

/-- C7 amended: for a fixed media-type set, flipping the direct-play
allowance or the companion-usage toggle always changes the computed
fingerprint; changing the effective selected view list changes it;
flipping the collection-import toggle changes it exactly when the
media-type set contains movies or collections (otherwise the setting is
not part of the hash object); and changing any setting outside these
four (device id, user, username, password, stored hash, last-sync
timestamp, save state, any unrelated key) never changes it.  Hash
equality and distinctness are read on the hash object itself, i.e. the
SHA-1 digest is treated as injective. -/
theorem calculateHash_sensitivity
    (mediaTypes : List String) (ps : ProviderSettings) (s : ImportSettings)
    (hmt : mediaTypes ≠ []) :
    (calculateHash mediaTypes { ps with allowDirectPlay := !ps.allowDirectPlay } s
       ≠ calculateHash mediaTypes ps s) ∧
    (calculateHash mediaTypes { ps with useKodiCompanion := !ps.useKodiCompanion } s
       ≠ calculateHash mediaTypes ps s) ∧
    (∀ s2 : ImportSettings, getLibraryViews s2 ≠ getLibraryViews s →
       calculateHash mediaTypes ps s2 ≠ calculateHash mediaTypes ps s) ∧
    ((MediaTypeMovie ∈ mediaTypes ∨ MediaTypeVideoCollection ∈ mediaTypes) →
       calculateHash mediaTypes ps { s with importCollections := !s.importCollections }
         ≠ calculateHash mediaTypes ps s) ∧
    (∀ (d u un pw : String) (o o2 : List (String × String)) (sh : StoredHash)
       (ls : Option String) (sv : Bool),
       calculateHash mediaTypes
         { ps with deviceId := d, user := u, username := un, password := pw, other := o }
         { s with syncSettingsHash := sh, lastSynced := ls, saved := sv, other := o2 }
         = calculateHash mediaTypes ps s) := by
  refine ⟨?_, ?_, ?_, ?_, ?_⟩
  · intro heq
    have h2 := congrArg HashObject.allowDirectPlay heq
    simp [calculateHash] at h2
  · intro heq
    have h2 := congrArg HashObject.useKodiCompanion heq
    simp [calculateHash] at h2
  · intro s2 hne heq
    have h2 := congrArg HashObject.libraryViews heq
    simp only [calculateHash] at h2
    exact hne h2
  · intro hm heq
    have h2 := congrArg HashObject.importCollections heq
    simp only [calculateHash] at h2
    rw [if_pos hm, if_pos hm] at h2
    simp at h2
  · intro d u un pw o o2 sh ls sv
    rfl

/-- Witness for C7 (amended) at a concrete input with movies present. -/
theorem calculateHash_sensitivity_witness :
    (calculateHash [MediaTypeMovie] { psA with allowDirectPlay := !psA.allowDirectPlay } sA
       ≠ calculateHash [MediaTypeMovie] psA sA) ∧
    (calculateHash [MediaTypeMovie] psA { sA with importCollections := !sA.importCollections }
       ≠ calculateHash [MediaTypeMovie] psA sA) ∧
    (calculateHash [MediaTypeMovie] psA
       { sA with syncSettingsHash := some hashA, saved := false }
       = calculateHash [MediaTypeMovie] psA sA) :=
  ⟨(calculateHash_sensitivity [MediaTypeMovie] psA sA (by decide)).1,
   (calculateHash_sensitivity [MediaTypeMovie] psA sA (by decide)).2.2.2.1
     (Or.inl (by decide)),
   (calculateHash_sensitivity [MediaTypeMovie] psA sA (by decide)).2.2.2.2
     psA.deviceId psA.user psA.username psA.password psA.other sA.other
     (some hashA) sA.lastSynced false⟩

/-- C5 counterexample: `_ProcessMessages` does not transition the
observer to `Disconnected` on end-of-stream nor on a non-timeout
exception — `self._connected` is untouched by the receive loop, so a
connected observer stays connected in both cases. -/
theorem processMessages_no_disconnect :
    (processMessages stConn ([RecvEvent.eos] : List (RecvEvent Nat))).1.connected = true ∧
    (processMessages stConn ([RecvEvent.otherExc] : List (RecvEvent Nat))).1.connected
      = true := by
  refine ⟨rfl, rfl⟩

/-- C5 amended: end-of-stream, a non-timeout exception and a receive
timeout all merely terminate the current `_ProcessMessages` pass (the
non-timeout exception being logged): the observer state — in particular
the connection flag — is never changed, so subsequent `Process` calls
attempt receives again; and when the observer is not connected, no
receive is attempted at all. -/
theorem processMessages_leaves_state (μ : Type) (st : ObserverState)
    (stream : List (RecvEvent μ)) :
    (processMessages st stream).1 = st ∧
    (st.connected = false → processMessages st stream = (st, [])) := by
  constructor
  · unfold processMessages
    split <;> rfl
  · intro h
    simp [processMessages, h]

/-- C6 counterexample: the provider comparison of `_StartAction` does
not include the base address — for a new provider that differs from the
current one only in its base path, the observer just updates its cached
provider and settings (no teardown, no reconnect), contradicting the
claim that a differing base address causes a teardown and reconnect. -/
theorem startAction_ignores_basePath :
    mpA.basePath ≠ mpB.basePath ∧
    startAction stConnA mpB true true =
      { state := { stConnA with mediaProvider := some mpB, settings := mpB.settings },
        returned := some true, toreDown := false, wsConnectAttempted := false } := by
  refine ⟨by decide, by decide⟩

/-- C6 amended: the fields compared by `Api.compareMediaProviders` are
the identifier, the display name, the device id, the user selection and
the credentials (the username only when the user selection is `manual`,
and the password) — the base address is not compared.  When a `Start`
action is processed while connected and the new provider compares equal
to the current one on those fields, the observer only updates its cached
provider and settings (it returns successfully, performs no teardown,
attempts no websocket connect and keeps its websocket); when any of the
compared fields differs, it tears down the current connection and runs
the full restart path (attempting a fresh websocket connect whenever
settings preparation and authentication succeed). -/
theorem startAction_reuse_or_reconnect :
    (∀ a b : MediaProvider,
       compareMediaProviders (some a) (some b) = true ↔
         (a.identifier = b.identifier ∧ a.friendlyName = b.friendlyName ∧
          ∃ sa sb, a.settings = some sa ∧ b.settings = some sb ∧
            sa.deviceId = sb.deviceId ∧ sa.user = sb.user ∧
            (sa.user = userOptionManual → sa.username = sb.username) ∧
            sa.password = sb.password)) ∧
    (∀ (st : ObserverState) (mp : MediaProvider) (authOk connectOk : Bool),
       st.connected = true →
       compareMediaProviders st.mediaProvider (some mp) = true →
       startAction st mp authOk connectOk =
         { state := { st with mediaProvider := some mp, settings := mp.settings },
           returned := some true, toreDown := false, wsConnectAttempted := false }) ∧
    (∀ (st : ObserverState) (mp : MediaProvider) (authOk connectOk : Bool),
       st.connected = true →
       compareMediaProviders st.mediaProvider (some mp) = false →
       (startAction st mp authOk connectOk).toreDown = true ∧
       (mp.settings ≠ none → authOk = true →
         (startAction st mp authOk connectOk).wsConnectAttempted = true)) := by
  refine ⟨?_, ?_, ?_⟩
  · intro a b
    rcases ha : a.settings with _ | sa <;> rcases hb : b.settings with _ | sb <;>
      simp only [compareMediaProviders, ha, hb] <;>
      split_ifs <;> simp_all
  · intro st mp authOk connectOk hconn hcomp
    simp [startAction, hconn, hcomp]
  · intro st mp authOk connectOk hconn hcomp
    rcases hs : mp.settings with _ | s0
    · simp [startAction, hconn, hcomp, hs, stopAction, observerReset]
    · rcases authOk with _ | _ <;>
        rcases connectOk with _ | _ <;>
          simp [startAction, hconn, hcomp, hs, stopAction, observerReset]

/-- Witness for C6 (amended) at concrete inputs: an unchanged provider
is reused; a provider with a different password is reconnected. -/
theorem startAction_reuse_or_reconnect_witness :
    (startAction stConnA mpA true true =
      { state := { stConnA with mediaProvider := some mpA, settings := mpA.settings },
        returned := some true, toreDown := false, wsConnectAttempted := false }) ∧
    ((startAction stConnA
        { mpA with settings := some { psA with password := "changed" } } true true).toreDown
      = true) ∧
    ((startAction stConnA
        { mpA with settings := some { psA with password := "changed" } } true true).wsConnectAttempted
      = true) :=
  ⟨(startAction_reuse_or_reconnect.2.1 stConnA mpA true true rfl (by decide)),
   ((startAction_reuse_or_reconnect.2.2 stConnA
      { mpA with settings := some { psA with password := "changed" } } true true rfl
      (by decide)).1),
   ((startAction_reuse_or_reconnect.2.2 stConnA
      { mpA with settings := some { psA with password := "changed" } } true true rfl
      (by decide)).2 (by decide) rfl)⟩

/-- Shifting the start of `enumFrom` shifts every produced index. -/
theorem enumFrom_succ_shift {α : Type} (l : List α) :
    ∀ n : Nat, List.enumFrom (n + 1) l = (List.enumFrom n l).map (fun p => (p.1 + 1, p.2)) := by
  induction l with
  | nil => intro n; rfl
  | cons x xs ih =>
    intro n
    rw [List.enumFrom_cons, List.enumFrom_cons, List.map_cons, ih (n + 1)]

/-- Recurrence for `_FindImportIndices`. -/
theorem findImportIndices_cons (x : MediaImport) (l : List MediaImport) (m : MediaImport) :
    findImportIndices (x :: l) m
      = (if importKey x = importKey m then [0] else [])
        ++ (findImportIndices l m).map (fun i => i + 1) := by
  have henum : List.enumFrom 1 l = l.enum.map (fun p => (p.1 + 1, p.2)) :=
    enumFrom_succ_shift l 0
  unfold findImportIndices
  rw [List.enum_cons, henum, List.filter_cons, List.filter_map]
  by_cases hk : importKey x = importKey m
  · have hkb : (x.path == m.path && x.mediaTypes == m.mediaTypes) = true := by
      have h1 := congrArg Prod.fst hk
      have h2 := congrArg Prod.snd hk
      simp [importKey] at h1 h2
      simp [h1, h2]
    rw [if_pos hk, hkb]
    simp [List.map_map]
    rfl
  · have hkb : ¬((x.path == m.path && x.mediaTypes == m.mediaTypes) = true) := by
      intro hb
      simp only [Bool.and_eq_true, beq_iff_eq] at hb
      exact hk (by simp [importKey, hb.1, hb.2])
    rw [if_neg hk, if_neg hkb]
    simp [List.map_map]
    rfl

/-- The number of matching indices equals the number of imports with the
same key. -/
theorem findImportIndices_length (l : List MediaImport) (m : MediaImport) :
    (findImportIndices l m).length
      = l.countP (fun x => x.path == m.path && x.mediaTypes == m.mediaTypes) := by
  induction l with
  | nil => rfl
  | cons x xs ih =>
    rw [findImportIndices_cons, List.countP_cons]
    by_cases hk : importKey x = importKey m
    · have hkb : (x.path == m.path && x.mediaTypes == m.mediaTypes) = true := by
        have h1 := congrArg Prod.fst hk
        have h2 := congrArg Prod.snd hk
        simp [importKey] at h1 h2
        simp [h1, h2]
      rw [if_pos hk, hkb]
      simp [ih]
    · have hkb : (x.path == m.path && x.mediaTypes == m.mediaTypes) = false := by
        by_contra hb
        simp only [Bool.not_eq_false, Bool.and_eq_true, beq_iff_eq] at hb
        exact hk (by simp [importKey, hb.1, hb.2])
      rw [if_neg hk, hkb]
      simp [ih]

/-- No index matches exactly when no import has the key. -/
theorem findImportIndices_eq_nil_iff (l : List MediaImport) (m : MediaImport) :
    findImportIndices l m = [] ↔ ∀ x ∈ l, importKey x ≠ importKey m := by
  induction l with
  | nil => simp [findImportIndices]
  | cons x xs ih =>
    rw [findImportIndices_cons]
    by_cases hk : importKey x = importKey m
    · simp [hk]
    · simp [hk, ih]

/-- Replacing the import at the first matching index leaves the key list
unchanged. -/
theorem set_head_match_keys (m : MediaImport) :
    ∀ (l : List MediaImport) (i : Nat) (rest : List Nat),
      findImportIndices l m = i :: rest →
      (l.set i m).map importKey = l.map importKey := by
  intro l
  induction l with
  | nil => intro i rest h; simp [findImportIndices] at h
  | cons x xs ih =>
    intro i rest h
    rw [findImportIndices_cons] at h
    by_cases hk : importKey x = importKey m
    · rw [if_pos hk] at h
      have hi : i = 0 := by
        have := congrArg (fun t => t.headD 0) h
        simpa using this.symm
      subst hi
      simp [List.map_cons, hk]
    · rw [if_neg hk] at h
      simp only [List.nil_append] at h
      rcases hrec : findImportIndices xs m with _ | ⟨j, rest2⟩
      · rw [hrec] at h; simp at h
      · rw [hrec] at h
        simp only [List.map_cons] at h
        have hij : i = j + 1 := by
          have := congrArg (fun t => t.headD 0) h
          simpa using this.symm
        subst hij
        simp only [List.set_cons_succ, List.map_cons]
        rw [ih j rest2 hrec]

/-- `AddImport` preserves the distinctness of import keys. -/
theorem addImport_keys_nodup (l : List MediaImport) (m : MediaImport)
    (h : (l.map importKey).Nodup) : ((addImport l m).map importKey).Nodup := by
  unfold addImport
  rcases hf : findImportIndices l m with _ | ⟨i, rest⟩
  · have hnot : importKey m ∉ l.map importKey := by
      intro hmem
      rcases List.mem_map.mp hmem with ⟨x, hx, hkey⟩
      exact (findImportIndices_eq_nil_iff l m).mp hf x hx hkey
    rw [List.map_append]
    rw [List.nodup_append_comm]
    simpa [List.nodup_cons] using And.intro hnot h
  · rw [set_head_match_keys m l i rest hf]
    exact h

/-- `RemoveImport` preserves the distinctness of import keys. -/
theorem removeImport_keys_nodup (l : List MediaImport) (m : MediaImport)
    (h : (l.map importKey).Nodup) : ((removeImport l m).map importKey).Nodup := by
  unfold removeImport
  rcases hf : findImportIndices l m with _ | ⟨i, rest⟩
  · exact h
  · exact (((l.eraseIdx_sublist i).map importKey).nodup h)

/-- With pairwise-distinct keys, at most one import matches any key. -/
theorem countP_key_le_one (m : MediaImport) :
    ∀ l : List MediaImport, (l.map importKey).Nodup →
      l.countP (fun x => x.path == m.path && x.mediaTypes == m.mediaTypes) ≤ 1 := by
  intro l
  induction l with
  | nil => intro h; simp
  | cons x xs ih =>
    intro h
    rw [List.map_cons, List.nodup_cons] at h
    rw [List.countP_cons]
    by_cases hk : (x.path == m.path && x.mediaTypes == m.mediaTypes) = true
    · have hxs : xs.countP (fun x => x.path == m.path && x.mediaTypes == m.mediaTypes) = 0 := by
        rw [List.countP_eq_zero]
        intro a ha hab
        simp only [Bool.and_eq_true, beq_iff_eq] at hk hab
        refine h.1 ?_
        refine List.mem_map.mpr ⟨a, ha, ?_⟩
        simp [importKey, hk.1, hk.2, hab.1, hab.2]
      rw [hxs, hk]
      simp
    · rw [if_neg hk]
      simpa using ih h.2

/-- C10: starting from a freshly constructed `ProviderObserver`, any
sequence of `AddImport` / `RemoveImport` calls keeps the internal
imports list free of duplicate (path, media-type set) keys — `AddImport`
replaces the matching entry in place and `RemoveImport` deletes it — so
`_FindImportIndices` always yields at most one index. -/
theorem observer_imports_unique (ops : List ImportOp) :
    ((applyImportOps [] ops).map importKey).Nodup ∧
    ∀ m : MediaImport, (findImportIndices (applyImportOps [] ops) m).length ≤ 1 := by
  have key : ∀ (ops2 : List ImportOp) (l : List MediaImport),
      (l.map importKey).Nodup → ((applyImportOps l ops2).map importKey).Nodup := by
    intro ops2
    induction ops2 with
    | nil => intro l h; exact h
    | cons op rest ih =>
      intro l h
      cases op with
      | add m => exact ih _ (addImport_keys_nodup l m h)
      | remove m => exact ih _ (removeImport_keys_nodup l m h)
  have h0 := key ops [] (by simp)
  refine ⟨h0, fun m => ?_⟩
  rw [findImportIndices_length]
  exact countP_key_le_one m _ h0

/-- Without cancellation, the inner page loop consumes the whole page:
the cursor advances by the page length and every convertible item is
appended. -/
theorem consumePageItems_neverCancel {α β : Type} (handle : α → Option β) (tc : Nat) :
    ∀ (xs : List α) (s : Nat) (acc : List β),
      consumePageItems neverCancel handle tc xs s acc
        = some (s + xs.length, acc ++ xs.filterMap handle) := by
  intro xs
  induction xs with
  | nil => intro s acc; simp [consumePageItems]
  | cons x rest ih =>
    intro s acc
    have step : consumePageItems neverCancel handle tc (x :: rest) s acc
        = match handle x with
          | none => consumePageItems neverCancel handle tc rest (s + 1) acc
          | some item => consumePageItems neverCancel handle tc rest (s + 1) (acc ++ [item]) :=
      rfl
    rw [step]
    rcases hx : handle x with _ | y
    · refine (ih (s + 1) acc).trans ?_
      simp [List.filterMap_cons, hx, List.length_cons]
      omega
    · refine (ih (s + 1) (acc ++ [y])).trans ?_
      simp [List.filterMap_cons, hx, List.length_cons, List.append_assoc]
      omega

/-- Crawling a slice-serving view: starting below the total, the loop
collects everything from the cursor on in exactly
`ceil((total - cursor) / 100)` further page requests. -/
theorem importItemsLoop_sliceServer {α β : Type} (allItems : List α)
    (handle : α → Option β) :
    ∀ (fuel s tc : Nat) (acc : List β) (reqs : Nat),
      s < allItems.length →
      (allItems.length - s + 99) / 100 ≤ fuel →
      importItemsLoop neverCancel (sliceServer allItems) handle fuel s tc acc reqs
        = .ok (acc ++ (allItems.drop s).filterMap handle)
            (reqs + (allItems.length - s + 99) / 100) := by
  intro fuel
  induction fuel with
  | zero =>
    intro s tc acc reqs hs hf
    exfalso
    omega
  | succ fuel ih =>
    intro s tc acc reqs hs hf
    have step : importItemsLoop neverCancel (sliceServer allItems) handle (fuel + 1) s tc acc reqs
        = match consumePageItems neverCancel handle allItems.length
            ((allItems.drop s).take ITEM_REQUEST_LIMIT) s acc with
          | none => .cancelled (reqs + 1)
          | some (s1, items1) =>
            if s1 ≥ allItems.length then .ok items1 (reqs + 1)
            else importItemsLoop neverCancel (sliceServer allItems) handle fuel s1
                   allItems.length items1 (reqs + 1) :=
      rfl
    rw [step, consumePageItems_neverCancel]
    show (if s + ((allItems.drop s).take ITEM_REQUEST_LIMIT).length ≥ allItems.length
          then CrawlOutcome.ok
                 (acc ++ ((allItems.drop s).take ITEM_REQUEST_LIMIT).filterMap handle)
                 (reqs + 1)
          else importItemsLoop neverCancel (sliceServer allItems) handle fuel
                 (s + ((allItems.drop s).take ITEM_REQUEST_LIMIT).length) allItems.length
                 (acc ++ ((allItems.drop s).take ITEM_REQUEST_LIMIT).filterMap handle)
                 (reqs + 1)) = _
    have hlen : ((allItems.drop s).take ITEM_REQUEST_LIMIT).length
        = min ITEM_REQUEST_LIMIT (allItems.length - s) := by
      simp [List.length_take, List.length_drop]
    by_cases hend : s + ((allItems.drop s).take ITEM_REQUEST_LIMIT).length ≥ allItems.length
    · rw [if_pos hend]
      have hsmall : allItems.length - s ≤ ITEM_REQUEST_LIMIT := by
        rw [hlen] at hend
        simp [ITEM_REQUEST_LIMIT] at hend ⊢
        omega
      have hpage : (allItems.drop s).take ITEM_REQUEST_LIMIT = allItems.drop s := by
        refine List.take_of_length_le ?_
        rw [List.length_drop]
        exact hsmall
      rw [hpage]
      have hone : (allItems.length - s + 99) / 100 = 1 := by
        simp [ITEM_REQUEST_LIMIT] at hsmall
        omega
      rw [hone]
    · rw [if_neg hend]
      have h100 : ((allItems.drop s).take ITEM_REQUEST_LIMIT).length = ITEM_REQUEST_LIMIT := by
        rw [hlen]
        simp [ITEM_REQUEST_LIMIT] at hend ⊢
        omega
      rw [h100]
      have hlt : s + ITEM_REQUEST_LIMIT < allItems.length := by
        rw [h100] at hend
        omega
      rw [ih (s + ITEM_REQUEST_LIMIT) _ _ _ hlt
        (by simp [ITEM_REQUEST_LIMIT] at hf ⊢; omega)]
      have hsplit : (allItems.drop s).filterMap handle
          = ((allItems.drop s).take ITEM_REQUEST_LIMIT).filterMap handle
            ++ (allItems.drop (s + ITEM_REQUEST_LIMIT)).filterMap handle := by
        conv_lhs => rw [← List.take_append_drop ITEM_REQUEST_LIMIT (allItems.drop s)]
        rw [List.filterMap_append, List.drop_drop]
      rw [hsplit, ← List.append_assoc]
      have harith : reqs + 1 + (allItems.length - (s + ITEM_REQUEST_LIMIT) + 99) / 100
          = reqs + (allItems.length - s + 99) / 100 := by
        simp only [ITEM_REQUEST_LIMIT]
        omega
      rw [harith]

/-- When the conversion accepts every item, `filterMap` keeps the
length. -/
theorem length_filterMap_of_total {α β : Type} (handle : α → Option β)
    (h : ∀ x, (handle x).isSome) :
    ∀ l : List α, (l.filterMap handle).length = l.length := by
  intro l
  induction l with
  | nil => rfl
  | cons x rest ih =>
    rcases hx : handle x with _ | y
    · exact absurd (hx ▸ h x) (by simp)
    · simp [List.filterMap_cons, hx, ih]

/-- C3 counterexample: for a view whose server reports `totalCount = 0`
(and serves pages that cumulatively contain exactly 0 items), the crawl
issues one page request, not `ceil(0/100) = 0` as the claim states. -/
theorem importItems_zeroTotal :
    importItems neverCancel (sliceServer ([] : List Nat)) some 1
      = CrawlOutcome.ok [] 1 ∧
    importItems neverCancel (sliceServer ([] : List Nat)) some 1
      ≠ CrawlOutcome.ok [] ((0 + 99) / 100) := by
  refine ⟨rfl, by decide⟩

/-- C3 amended: for a view whose server reports the constant total
`totalCount = allItems.length` and serves, at every cursor, the slice of
its items at that cursor limited to `ITEM_REQUEST_LIMIT = 100` entries,
`importItems` terminates after exactly `ceil(totalCount/100)` page
requests when `totalCount > 0` — and after one page request when
`totalCount = 0` — and collects exactly `totalCount` records, in order
and without duplicates introduced by the crawler (its output is exactly
`allItems.filterMap handle`, which has full length whenever the
conversion accepts every item). -/
theorem importItems_sliceServer_pagination {α β : Type} (allItems : List α)
    (handle : α → Option β) (fuel : Nat)
    (hh : ∀ x, (handle x).isSome)
    (hfuel : allItems.length / 100 + 1 ≤ fuel) :
    importItems neverCancel (sliceServer allItems) handle fuel
      = .ok (allItems.filterMap handle)
          (if allItems.length = 0 then 1 else (allItems.length + 99) / 100) ∧
    (allItems.filterMap handle).length = allItems.length := by
  constructor
  · unfold importItems
    by_cases hn : allItems.length = 0
    · have hnil : allItems = [] := List.length_eq_zero.mp hn
      subst hnil
      rcases fuel with _ | fuel
      · omega
      · simp [importItemsLoop, sliceServer, consumePageItems, neverCancel]
    · rw [importItemsLoop_sliceServer allItems handle fuel 0 0 [] 0 (by omega)
        (by omega)]
      simp [hn]
  · exact length_filterMap_of_total handle hh allItems

/-- Witness for C3 (amended) at a concrete 3-item view. -/
theorem importItems_sliceServer_pagination_witness :
    (importItems neverCancel (sliceServer ([10, 11, 12] : List Nat)) some 2
      = .ok [10, 11, 12]
          (if ([10, 11, 12] : List Nat).length = 0 then 1
           else (([10, 11, 12] : List Nat).length + 99) / 100) ∧
    (([10, 11, 12] : List Nat).filterMap some).length
      = ([10, 11, 12] : List Nat).length) :=
  importItems_sliceServer_pagination [10, 11, 12] some 2 (fun _ => rfl) (by decide)

/-- C4: when a page response is missing the `Items` field,
`importItems` aborts the crawl of the current media type (it logs at
error level and returns `None`, modelled by `invalidResponse`); the view
loop of `execImport` then executes `items.extend(None)`, which raises a
`TypeError` that no handler in `execImport` or `run` catches — the
exception propagates past the synchronization entry point instead of
`execImport` returning normally. -/
theorem invalidPage_raises_typeError :
    importItems neverCancel
        (fun _ => some ({ items := none, totalRecordCount := some 3 } : PageResponse Nat))
        some 5
      = CrawlOutcome.invalidResponse 1 ∧
    execImportViewsLoop
        (fun _ _ => some ({ items := none, totalRecordCount := some 3 } : PageResponse Nat))
        (some : Nat → Option Nat) 5 ["v1"] []
      = PyOutcome.typeError := by
  refine ⟨rfl, rfl⟩

/-- The view loop only appends `fetched` events: if the events so far
record exactly the fetch of every collected item, they still do after
the loop. -/
theorem viewPhase_events (ic im : Bool) :
    ∀ (views : List ViewCrawl) (items : List FileItem)
      (boxsets : List (String × String)) (events : List CrawlEvent),
      events = items.map (fun it => CrawlEvent.fetched it.path) →
      (viewPhase ic im views items boxsets events).2.2
        = (viewPhase ic im views items boxsets events).1.map
            (fun it => CrawlEvent.fetched it.path) := by
  intro views
  induction views with
  | nil => intro items boxsets events h; simpa [viewPhase] using h
  | cons v rest ih =>
    intro items boxsets events h
    have h1 : events ++ v.items.map (fun it => CrawlEvent.fetched it.path)
        = (items ++ v.items).map (fun it => CrawlEvent.fetched it.path) := by
      rw [h, List.map_append]
    simp only [viewPhase]
    split_ifs with hc
    · exact ih _ _ _ h1
    · exact ih _ _ _ h1

/-- Tagging one BoxSet member preserves the collected paths, and every
emitted `tagged` event names a collected path. -/
theorem tagBoxsetItem_facts (items : List FileItem) (p n : String) :
    (tagBoxsetItem items p n).1.map FileItem.path = items.map FileItem.path ∧
    ∀ q c, CrawlEvent.tagged q c ∈ (tagBoxsetItem items p n).2 →
      q ∈ items.map FileItem.path := by
  constructor
  · show (items.map fun item =>
        if p == item.path then setCollection item n else item).map FileItem.path = _
    rw [List.map_map]
    refine List.map_congr_left ?_
    intro a _
    by_cases hp : p == a.path <;> simp [hp, setCollection, Function.comp]
  · intro q c hq
    simp only [tagBoxsetItem] at hq
    rcases List.mem_map.mp hq with ⟨item, hitem, heq⟩
    have hmem : item ∈ items := List.mem_of_mem_filter hitem
    have hpath : item.path = q := by
      have := congrArg (fun e => match e with
        | CrawlEvent.tagged q2 _ => q2
        | CrawlEvent.fetched q2 => q2) heq
      simpa using this
    exact List.mem_map.mpr ⟨item, hmem, hpath⟩

/-- The member loop of one BoxSet preserves the collected paths and only
tags collected paths. -/
theorem tagBoxsetMembers_inv (name : String) (P : List String) :
    ∀ (ms items : List FileItem) (events : List CrawlEvent),
      items.map FileItem.path = P →
      (∀ q c, CrawlEvent.tagged q c ∈ events → q ∈ P) →
      (tagBoxsetMembers name ms items events).1.map FileItem.path = P ∧
      (∀ q c, CrawlEvent.tagged q c ∈ (tagBoxsetMembers name ms items events).2 →
        q ∈ P) := by
  intro ms
  induction ms with
  | nil => intro items events h1 h2; exact ⟨h1, h2⟩
  | cons b rest ih =>
    intro items events h1 h2
    refine ih _ _ ?_ ?_
    · rw [(tagBoxsetItem_facts items b.path name).1, h1]
    · intro q c hq
      rcases List.mem_append.mp hq with hev | hev
      · exact h2 q c hev
      · have := (tagBoxsetItem_facts items b.path name).2 q c hev
        rw [h1] at this
        exact this

/-- The BoxSet loop preserves the collected paths and only tags
collected paths. -/
theorem tagBoxsets_inv (members : String → List FileItem) (P : List String) :
    ∀ (boxsets : List (String × String)) (items : List FileItem)
      (events : List CrawlEvent),
      items.map FileItem.path = P →
      (∀ q c, CrawlEvent.tagged q c ∈ events → q ∈ P) →
      (tagBoxsets members boxsets items events).1.map FileItem.path = P ∧
      (∀ q c, CrawlEvent.tagged q c ∈ (tagBoxsets members boxsets items events).2 →
        q ∈ P) := by
  intro boxsets
  induction boxsets with
  | nil => intro items events h1 h2; exact ⟨h1, h2⟩
  | cons b rest ih =>
    intro items events h1 h2
    have hm := tagBoxsetMembers_inv b.2 P (members b.1) items events h1 h2
    exact ih _ _ hm.1 hm.2

/-- The whole BoxSet pass preserves the collected paths and only tags
collected paths. -/
theorem boxsetPhase_inv (ic : Bool) (members : String → List FileItem)
    (items : List FileItem) (boxsets : List (String × String)) :
    (boxsetPhase ic members items boxsets).1.map FileItem.path
      = items.map FileItem.path ∧
    ∀ q c, CrawlEvent.tagged q c ∈ (boxsetPhase ic members items boxsets).2 →
      q ∈ items.map FileItem.path := by
  unfold boxsetPhase
  split_ifs with h
  · exact tagBoxsets_inv members (items.map FileItem.path) boxsets items [] rfl
      (by intro q c hq; simp at hq)
  · exact ⟨rfl, by intro q c hq; simp at hq⟩

/-- C9: in the per-media-type import, every `setCollection` application
(`tagged` event) happens strictly after the item it targets was fetched
by the primary view crawl: any `tagged p` entry of the event trace is
preceded by a `fetched p` entry, and the BoxSet pass never adds or
removes items (it only mutates already-collected ones, matched by path
equality). -/
theorem collectionTag_only_after_fetch (ic im : Bool) (views : List ViewCrawl)
    (members : String → List FileItem) (j : Nat) (p n : String)
    (h : (mediaTypePhase ic im views members).2[j]? = some (CrawlEvent.tagged p n)) :
    CrawlEvent.fetched p ∈ (mediaTypePhase ic im views members).2.take j ∧
    (mediaTypePhase ic im views members).1.map FileItem.path
      = (viewPhase ic im views [] [] []).1.map FileItem.path := by
  have hA : (viewPhase ic im views [] [] []).2.2
      = (viewPhase ic im views [] [] []).1.map (fun it => CrawlEvent.fetched it.path) :=
    viewPhase_events ic im views [] [] [] rfl
  have hBfacts := boxsetPhase_inv ic members (viewPhase ic im views [] [] []).1
    (viewPhase ic im views [] [] []).2.1
  have htrace : (mediaTypePhase ic im views members).2
      = (viewPhase ic im views [] [] []).2.2
        ++ (boxsetPhase ic members (viewPhase ic im views [] [] []).1
             (viewPhase ic im views [] [] []).2.1).2 := rfl
  rw [htrace] at h ⊢
  by_cases hlt : j < (viewPhase ic im views [] [] []).2.2.length
  · exfalso
    rw [List.getElem?_append, if_pos hlt, hA, List.getElem?_map] at h
    rcases hx : (viewPhase ic im views [] [] []).1[j]? with _ | it <;> rw [hx] at h <;>
      simp at h
  · have hge : (viewPhase ic im views [] [] []).2.2.length ≤ j := Nat.le_of_not_lt hlt
    rw [List.getElem?_append_right hge] at h
    have hmem : CrawlEvent.tagged p n
        ∈ (boxsetPhase ic members (viewPhase ic im views [] [] []).1
            (viewPhase ic im views [] [] []).2.1).2 :=
      List.getElem?_mem h
    have hp : p ∈ (viewPhase ic im views [] [] []).1.map FileItem.path :=
      hBfacts.2 p n hmem
    have hfetched : CrawlEvent.fetched p ∈ (viewPhase ic im views [] [] []).2.2 := by
      rw [hA]
      rcases List.mem_map.mp hp with ⟨it, hit, hpath⟩
      exact List.mem_map.mpr ⟨it, hit, by rw [hpath]⟩
    constructor
    · rw [List.take_append_eq_append_take]
      refine List.mem_append_left _ ?_
      rw [List.take_of_length_le hge]
      exact hfetched
    · exact hBfacts.1

/-- Witness for C9 at the spec's concrete scenario: one movie view with
item `m3`, one collection `C1` containing `m3` — the trace is
`[fetched m3, tagged m3 C1]` and the tag at position 1 is preceded by
the fetch. -/
theorem collectionTag_only_after_fetch_witness :
    CrawlEvent.fetched "m3"
      ∈ (mediaTypePhase true true
          [{ items := [{ path := "m3", collection := none }],
             boxsetObjs := [{ id := some "c1", name := some "C1" }] }]
          (fun _ => [{ path := "m3", collection := none }])).2.take 1 ∧
    (mediaTypePhase true true
        [{ items := [{ path := "m3", collection := none }],
           boxsetObjs := [{ id := some "c1", name := some "C1" }] }]
        (fun _ => [{ path := "m3", collection := none }])).1.map FileItem.path
      = (viewPhase true true
          [{ items := [{ path := "m3", collection := none }],
             boxsetObjs := [{ id := some "c1", name := some "C1" }] }] [] [] []).1.map
          FileItem.path :=
  collectionTag_only_after_fetch true true
    [{ items := [{ path := "m3", collection := none }],
       boxsetObjs := [{ id := some "c1", name := some "C1" }] }]
    (fun _ => [{ path := "m3", collection := none }]) 1 "m3" "C1" (by decide)

/-- `matchLoop` on a single id list reduces to `matchOne`. -/
theorem matchLoop_singleton :
    ∀ (xs : List LocalItem) (m : List LocalItem) (t : List String),
      matchLoop xs [(m, t)] = [matchOne xs m t] := by
  intro xs
  induction xs with
  | nil => intro m t; rfl
  | cons x rest ih =>
    intro m t
    unfold matchLoop matchOne
    by_cases ht : t.isEmpty
    · simp [ht]
    · rcases hid : x.embyId with _ | id
      · simp [ht, hid, ih]
      · by_cases hempty : id = ""
        · simp [ht, hid, hempty, ih]
        · by_cases hc : t.contains id
          · have hc2 : id ∈ t := List.mem_of_elem_eq_true hc
            simp [ht, hid, hempty, hc, hc2, matchLocalItemStep, ih]
          · have hc2 : id ∉ t := fun h => hc (List.elem_eq_true_of_mem h)
            simp [ht, hid, hempty, hc, hc2, matchLocalItemStep, ih]

/-- Every item matched by `matchOne` comes from the scanned local items
(beyond the already-matched prefix) and matches some still-pending id. -/
theorem matchOne_mem :
    ∀ (xs m : List LocalItem) (t : List String) (x : LocalItem),
      x ∈ (matchOne xs m t).1 →
      x ∈ m ∨ (x ∈ xs ∧ ∃ id, x.embyId = some id ∧ id ∈ t) := by
  intro xs
  induction xs with
  | nil => intro m t x hx; exact Or.inl hx
  | cons y rest ih =>
    intro m t x hx
    unfold matchOne at hx
    by_cases ht : t.isEmpty
    · rw [if_pos ht] at hx
      exact Or.inl hx
    · rw [if_neg ht] at hx
      rcases hid : y.embyId with _ | id
      · simp only [hid] at hx
        rcases ih m t x hx with h | ⟨hmem, hrest⟩
        · exact Or.inl h
        · exact Or.inr ⟨List.mem_cons_of_mem y hmem, hrest⟩
      · simp only [hid] at hx
        by_cases he : id = ""
        · rw [if_pos he] at hx
          rcases ih m t x hx with h | ⟨hmem, hrest⟩
          · exact Or.inl h
          · exact Or.inr ⟨List.mem_cons_of_mem y hmem, hrest⟩
        · rw [if_neg he] at hx
          by_cases hc : t.contains id
          · rw [if_pos hc] at hx
            rcases ih (m ++ [y]) (t.erase id) x hx with h | ⟨hmem, id2, hid2, hid2t⟩
            · rcases List.mem_append.mp h with h1 | h2
              · exact Or.inl h1
              · have hxy : x = y := by simpa using h2
                refine Or.inr ⟨by simp [hxy], id, ?_, List.mem_of_elem_eq_true hc⟩
                rw [hxy]
                exact hid
            · exact Or.inr
                ⟨List.mem_cons_of_mem y hmem, id2, hid2, List.mem_of_mem_erase hid2t⟩
          · rw [if_neg hc] at hx
            rcases ih m t x hx with h | ⟨hmem, hrest⟩
            · exact Or.inl h
            · exact Or.inr ⟨List.mem_cons_of_mem y hmem, hrest⟩

/-- Per id, `matchOne` adds at most as many matched entries as the
pending list holds occurrences of the id. -/
theorem matchOne_countP_le (idq : String) :
    ∀ (xs m : List LocalItem) (t : List String),
      (matchOne xs m t).1.countP (fun x => x.embyId == some idq)
        ≤ m.countP (fun x => x.embyId == some idq) + t.count idq := by
  intro xs
  induction xs with
  | nil => intro m t; exact Nat.le_add_right _ _
  | cons y rest ih =>
    intro m t
    unfold matchOne
    by_cases ht : t.isEmpty
    · rw [if_pos ht]
      exact Nat.le_add_right _ _
    · rw [if_neg ht]
      split
      · exact ih m t
      · rename_i id heq
        split_ifs with he hc
        · exact ih m t
        · refine (ih (m ++ [y]) (t.erase id)).trans ?_
          rw [List.countP_append]
          by_cases hii : id = idq
          · subst hii
            have hcnt : (t.erase id).count id = t.count id - 1 :=
              List.count_erase_self id t
            have hpos : 0 < t.count id :=
              List.count_pos_iff_mem.mpr (List.mem_of_elem_eq_true hc)
            have hy : [y].countP (fun x => x.embyId == some id) = 1 := by
              simp [heq]
            rw [hy, hcnt]
            omega
          · have hy : [y].countP (fun x => x.embyId == some idq) = 0 := by
              simp [heq]
              exact fun h => hii h
            have hcnt : (t.erase id).count idq = t.count idq :=
              List.count_erase_of_ne (fun h => hii h.symm) t
            rw [hy, hcnt]
            omega
        · exact ih m t

/-- C8: in fast-sync mode, each removed id delivered by the companion
sync queue yields at most one `Removed` entry, every emitted entry is a
local imported item matching one of the removed ids, and ids with no
matching local item produce no entry.  The `Nodup` hypothesis says each
removed id is delivered once by the queue. -/
theorem fastSyncRemoved_per_id (localItems : List LocalItem)
    (itemsRemoved : List String) (hnd : itemsRemoved.Nodup) :
    (∀ x ∈ fastSyncRemovedStep localItems itemsRemoved,
        x ∈ localItems ∧ ∃ id, x.embyId = some id ∧ id ∈ itemsRemoved) ∧
    (∀ id : String,
        (fastSyncRemovedStep localItems itemsRemoved).countP
          (fun x => x.embyId == some id) ≤ 1) := by
  unfold fastSyncRemovedStep matchImportedItemIdsToLocalItems
  by_cases hemp : itemsRemoved.isEmpty
  · simp [hemp]
  · rw [if_neg hemp]
    have hb : matchLoop localItems ([itemsRemoved].map (fun ids => ([], ids)))
        = [matchOne localItems [] itemsRemoved] := by
      simpa using matchLoop_singleton localItems [] itemsRemoved
    rw [hb]
    simp only [List.map_cons, List.map_nil, List.headD_cons]
    constructor
    · intro x hx
      rcases matchOne_mem localItems [] itemsRemoved x hx with h | h
      · simp at h
      · exact h
    · intro id
      have h := matchOne_countP_le id localItems [] itemsRemoved
      simp only [List.countP_nil, Nat.zero_add] at h
      have h2 : itemsRemoved.count id ≤ 1 := List.nodup_iff_count_le_one.mp hnd id
      omega

/-- Witness for C8 at the spec's concrete scenario: removed ids
`r1, r2`, only `r1` imported locally — exactly one `Removed` item. -/
theorem fastSyncRemoved_per_id_witness :
    (∀ x ∈ fastSyncRemovedStep [{ embyId := some "r1", payload := 0 }] ["r1", "r2"],
        x ∈ [({ embyId := some "r1", payload := 0 } : LocalItem)] ∧
        ∃ id, x.embyId = some id ∧ id ∈ ["r1", "r2"]) ∧
    (∀ id : String,
        (fastSyncRemovedStep [{ embyId := some "r1", payload := 0 }] ["r1", "r2"]).countP
          (fun x => x.embyId == some id) ≤ 1) ∧
    fastSyncRemovedStep [{ embyId := some "r1", payload := 0 }] ["r1", "r2"]
      = [{ embyId := some "r1", payload := 0 }] :=
  ⟨(fastSyncRemoved_per_id [{ embyId := some "r1", payload := 0 }] ["r1", "r2"]
      (by decide)).1,
   (fastSyncRemoved_per_id [{ embyId := some "r1", payload := 0 }] ["r1", "r2"]
      (by decide)).2,
   by decide⟩

/-- Witness for C5 (amended) at a concrete disconnected state. -/
theorem processMessages_leaves_state_witness :
    (processMessages initialObserverState ([RecvEvent.eos] : List (RecvEvent Nat))).1
      = initialObserverState ∧
    processMessages initialObserverState ([RecvEvent.eos] : List (RecvEvent Nat))
      = (initialObserverState, []) :=
  ⟨(processMessages_leaves_state Nat initialObserverState [RecvEvent.eos]).1,
   (processMessages_leaves_state Nat initialObserverState [RecvEvent.eos]).2 rfl⟩

end Emby
